import Mathlib

/-!
Shallow embedding of the snowpack trend/measurement-aggregation pipeline of
`src/snotel_mcp_server/__init__.py` (the `analyze_snowpack_trends` tool,
lines 353-499), together with theorems settling the frozen claims about it.

Python numbers are modelled as rationals; Python `round(x, n)` (banker's
rounding) as `pyRound`; dicts keyed by strings as association lists with
Python-dict update semantics (`pyInsert`: an update keeps the key's first
insertion position); Python `None` as `Option.none`; the `TypeError` raised
by `sorted` on a set mixing `None` with strings as `Except.error`.
-/

deriving instance DecidableEq for Except

namespace Snotel

/-- Python banker's rounding of a rational to the nearest integer:
round-half-to-even, as `round(x)` does on floats. -/
def pyRoundInt (q : ℚ) : ℤ :=
  let f : ℤ := ⌊q⌋
  let r : ℚ := q - f
  if r < 1/2 then f
  else if 1/2 < r then f + 1
  else if f % 2 = 0 then f else f + 1

/-- Python `round(q, n)`: banker's rounding at `n` decimal digits. -/
def pyRound (q : ℚ) (n : ℕ) : ℚ :=
  ((pyRoundInt (q * 10 ^ n) : ℚ)) / 10 ^ n

/-- Python `round(q, 1)`, used throughout the snow-depth/snowfall analysis. -/
def round1 (q : ℚ) : ℚ := pyRound q 1

/-- Python `round(q, 2)`, used by the SWE analysis. -/
def round2 (q : ℚ) : ℚ := pyRound q 2

/-- One raw observation `{date, value}` from a `values` list of the source
payload. `date` is `none` when the entry has no `"date"` key (Python
`v.get("date")` yields `None`); `value` is `none` for an explicit JSON null
or a missing `"value"` key. -/
structure RawValue where
  date : Option String
  value : Option ℚ
deriving DecidableEq

/-- One per-element group of a station's `data` list. `elementCode` is `none`
when `stationElement`/`elementCode` is missing (Python's
`item.get("stationElement", {}).get("elementCode", "")` then yields `""`);
`values` is the group's `values` list (missing key modelled as `[]`). -/
structure Group where
  elementCode : Option String
  values : List RawValue
deriving DecidableEq

/-- Python dict assignment `d[k] = v` on an insertion-ordered association
list: an existing key keeps its position and gets the new value, a new key
is appended at the end. -/
def pyInsert {α : Type} (k : String) (v : α) : List (String × α) → List (String × α)
  | [] => [(k, v)]
  | (k', v') :: rest => if k' = k then (k, v) :: rest else (k', v') :: pyInsert k v rest

/-- The `element_data` dict (`__init__.py` lines 391-396): loop over the
station's `data` list, assigning `element_data[code] = values` for each
group; a repeated element code therefore keeps only the last group's
`values` list. -/
def buildElementData (gs : List Group) : List (String × List RawValue) :=
  gs.foldl (fun ed g => pyInsert (g.elementCode.getD "") g.values ed) []

/-- The `dates` set (`__init__.py` lines 398-401): every `v.get("date")`
over every values list of `element_data`, with set semantics (`dedup`). -/
def allDates (ed : List (String × List RawValue)) : List (Option String) :=
  (((ed.map Prod.snd).flatten).map RawValue.date).dedup

/-- Strict string order used by Python `sorted`: lexicographic by character
code, i.e. the lexicographic order on the character lists. Equivalent to the
ambient `<` on `String` (`String.lt_iff_toList_lt`), restated on `data` so
that it evaluates inside the kernel. -/
def strLt (a b : String) : Prop := a.data < b.data

instance strLt.decRel : DecidableRel strLt := fun a b =>
  inferInstanceAs (Decidable (a.data < b.data))

/-- The matching non-strict order (Python sorts with `<` only; `strLe` is
its reflexive closure, equivalent to the ambient `≤` on `String`). -/
def strLe (a b : String) : Prop := ¬ strLt b a

instance strLe.decRel : DecidableRel strLe := fun a b =>
  inferInstanceAs (Decidable (¬ strLt b a))

theorem strLt_iff_lt (a b : String) : strLt a b ↔ a < b :=
  String.lt_iff_toList_lt.symm

theorem strLe_iff_le (a b : String) : strLe a b ↔ a ≤ b :=
  not_congr (strLt_iff_lt b a)

instance strLe.total : IsTotal String strLe :=
  ⟨fun a b => (le_total a b).imp (strLe_iff_le a b).mpr (strLe_iff_le b a).mpr⟩

instance strLe.trans : IsTrans String strLe :=
  ⟨fun a b c h h' => (strLe_iff_le a c).mpr
    (le_trans ((strLe_iff_le a b).mp h) ((strLe_iff_le b c).mp h'))⟩

/-- Python `sorted(dates)` on the set of collected dates (`__init__.py` line
403). Comparing `None` with a string raises `TypeError`, so a set holding
`none` together with at least one string is an error; otherwise the dates
sort ascending (lexicographically, as Python compares strings). -/
def sortDates (ds : List (Option String)) : Except Unit (List (Option String)) :=
  if none ∈ ds then
    if ds.any (fun d => d.isSome) then .error () else .ok [none]
  else .ok (((ds.filterMap id).insertionSort strLe).map some)

/-- The per-date accumulator behind the record dict of `__init__.py` lines
404-409: `date` holds the loop variable `date` and `fields` holds the
`record[code] = v.get("value")` assignments, in dict order; a field is
present exactly when the element has a values entry on that date, and its
value is that entry's possibly null value. The record the loop actually
builds is the single Python dict `Record.pyDict` below, obtained by
replaying these assignments onto `{"date": date}` — so an element code that
is literally the string `"date"` overwrites the `"date"` key there. -/
structure Record where
  date : Option String
  fields : List (String × Option ℚ)
deriving DecidableEq

/-- The inner scan (`__init__.py` lines 406-409): walk an element's values
list and take the first entry whose date equals the record's date (`break`
after the first match), returning its (possibly null) value. -/
def firstValueOn (d : Option String) : List RawValue → Option (Option ℚ)
  | [] => none
  | v :: vs => if v.date = d then some v.value else firstValueOn d vs

/-- Collect the record data for one date (`__init__.py` lines 404-409): for
each element code of `element_data` in insertion order, the first matching
value if any. The resulting dict — including the overwrite of the `"date"`
key when an element code is literally `"date"` — is `Record.pyDict`. -/
def buildRecord (ed : List (String × List RawValue)) (d : Option String) : Record :=
  { date := d
    fields := ed.filterMap (fun ce => (firstValueOn d ce.2).map (fun v => (ce.1, v))) }

/-- A value inside the record dict, as Python holds it: `None` (from a
missing date or an explicit null), a date string, or a numeric measurement. -/
inductive PyVal where
  | vnull : PyVal
  | vstr : String → PyVal
  | vnum : ℚ → PyVal
deriving DecidableEq

/-- A raw date as a record-dict value. -/
def pyOfDate : Option String → PyVal
  | none => .vnull
  | some s => .vstr s

/-- A possibly null measurement as a record-dict value. -/
def pyOfValue : Option ℚ → PyVal
  | none => .vnull
  | some q => .vnum q

/-- The record as the Python dict the loop of `__init__.py` lines 404-409
actually builds: start from `record = {"date": date}` and perform the
`record[code] = value` assignments in order. An element code that is
literally `"date"` therefore overwrites the `"date"` key. -/
def Record.pyDict (r : Record) : List (String × PyVal) :=
  r.fields.foldl (fun d cv => pyInsert cv.1 (pyOfValue cv.2) d)
    [("date", pyOfDate r.date)]

/-- The record's emitted `"date"` entry: the value of the `"date"` key of
the built dict (always present; the default is unreachable). -/
def Record.pyDate (r : Record) : PyVal :=
  (r.pyDict.lookup "date").getD .vnull

/-- The value of the last `record[c] = value` assignment a fields list
performs, if any — what dict replay leaves under key `c`. -/
def lastFieldAssign (c : String) : List (String × Option ℚ) → Option PyVal
  | [] => none
  | cv :: fs => (lastFieldAssign c fs).or (if cv.1 = c then some (pyOfValue cv.2) else none)

/-- Strict ascending order on emitted `"date"` entries: both are date
strings in ascending lexicographic order. -/
def pyDateLt (a b : PyVal) : Prop :=
  match a, b with
  | .vstr x, .vstr y => strLt x y
  | _, _ => False

instance pyDateLt.dec : ∀ a b : PyVal, Decidable (pyDateLt a b)
  | .vstr x, .vstr y => inferInstanceAs (Decidable (strLt x y))
  | .vnull, _ => .isFalse fun h => h
  | .vnum _, _ => .isFalse fun h => h
  | .vstr _, .vnull => .isFalse fun h => h
  | .vstr _, .vnum _ => .isFalse fun h => h

/-- Normalization of one station's `data` list (`__init__.py` lines
389-410): build `element_data`, collect and sort the date set, and emit one
record per date in ascending order. -/
def normalize (gs : List Group) : Except Unit (List Record) :=
  match sortDates (allDates (buildElementData gs)) with
  | .error e => .error e
  | .ok ds => .ok (ds.map (buildRecord (buildElementData gs)))

/-- One station object of the source response: its `stationTriplet` (none
when missing) and its `data` list of per-element groups. -/
structure Station where
  stationTriplet : Option String
  data : List Group
deriving DecidableEq

/-- The outer parse loop (`__init__.py` lines 386-410): normalize and
concatenate the records of every station whose triplet matches. -/
def parseMeasurements (triplet : String) : List Station → Except Unit (List Record)
  | [] => .ok []
  | st :: rest =>
    if st.stationTriplet = some triplet then
      match normalize st.data with
      | .error e => .error e
      | .ok ms => (parseMeasurements triplet rest).map (fun more => ms ++ more)
    else parseMeasurements triplet rest

/-- `snow_depths` (`__init__.py` lines 429-430): the `(date, SNWD)` pairs of
the records that carry the `SNWD` key with a non-null value. -/
def snowDepths (ms : List Record) : List (Option String × ℚ) :=
  ms.filterMap (fun r => match r.fields.lookup "SNWD" with
    | some (some v) => some (r.date, v)
    | _ => none)

/-- `swes` (`__init__.py` lines 449-450): the `(date, WTEQ)` pairs of the
records that carry the `WTEQ` key with a non-null value. -/
def sweSeries (ms : List Record) : List (Option String × ℚ) :=
  ms.filterMap (fun r => match r.fields.lookup "WTEQ" with
    | some (some v) => some (r.date, v)
    | _ => none)

/-- The `snow_depth_analysis` sub-report (`__init__.py` lines 437-446). -/
structure DepthStats where
  peak_value : ℚ
  peak_date : Option String
  average_depth : ℚ
  days_with_snow : ℕ
  total_observations : ℕ
deriving DecidableEq

/-- The `swe_analysis` sub-report (`__init__.py` lines 457-465). -/
structure SweStats where
  peak_value : ℚ
  peak_date : Option String
  average_swe : ℚ
  total_observations : ℕ
deriving DecidableEq

/-- A derived snowfall event `{date, amount}` (`__init__.py` lines 473-476). -/
structure SnowEvent where
  date : Option String
  amount : ℚ
deriving DecidableEq

instance : Inhabited SnowEvent := ⟨⟨none, 0⟩⟩

/-- The `snowfall_analysis` sub-report (`__init__.py` lines 484-494). -/
structure SnowfallStats where
  total_new_snow : ℚ
  snow_days : ℕ
  biggest_amount : ℚ
  biggest_date : Option String
  average_per_snow_day : ℚ
  events : List SnowEvent
deriving DecidableEq

/-- Snow depth analysis (`__init__.py` lines 432-446): `none` when
`snow_depths` is empty (the `if snow_depths:` guard fails and the
sub-report dict stays `{}`); otherwise peak (`max(depths)` then the first
date whose depth equals it), average, days with depth `> 0`, and the
observation count. Python's `max` is the left fold of binary `max` seeded
with the first element, and `[d[0] for d in snow_depths if d[1] ==
peak_depth][0]` is the head of the filtered list. -/
def snowDepthAnalysis : List (Option String × ℚ) → Option DepthStats
  | [] => none
  | p :: ps =>
    let depths : List ℚ := (p :: ps).map Prod.snd
    let peak : ℚ := (ps.map Prod.snd).foldl max p.2
    let pdate : Option String := (((p :: ps).filter (fun q => q.2 == peak)).map Prod.fst).headI
    some { peak_value := round1 peak
           peak_date := pdate
           average_depth := round1 (depths.sum / (depths.length : ℚ))
           days_with_snow := (depths.filter (fun d => 0 < d)).length
           total_observations := depths.length }

/-- SWE analysis (`__init__.py` lines 452-465): same shape as the depth
analysis, rounded to 2 decimals, without the days-with-snow count. -/
def sweAnalysis : List (Option String × ℚ) → Option SweStats
  | [] => none
  | p :: ps =>
    let vals : List ℚ := (p :: ps).map Prod.snd
    let peak : ℚ := (ps.map Prod.snd).foldl max p.2
    let pdate : Option String := (((p :: ps).filter (fun q => q.2 == peak)).map Prod.fst).headI
    some { peak_value := round2 peak
           peak_date := pdate
           average_swe := round2 (vals.sum / (vals.length : ℚ))
           total_observations := vals.length }

/-- The snowfall-event derivation (`__init__.py` lines 467-476): `for i in
range(1, len(snow_depths))`, comparing each depth observation with its
immediately preceding one and emitting `{date_i, round(curr - prev, 1)}`
whenever `curr > prev`. -/
def snowfallDays : List (Option String × ℚ) → List SnowEvent
  | [] => []
  | [_] => []
  | p :: q :: rest =>
    (if p.2 < q.2 then [⟨q.1, round1 (q.2 - p.2)⟩] else []) ++ snowfallDays (q :: rest)

/-- Snowfall summary (`__init__.py` lines 478-494): `none` when there are no
events (the `if snowfall_days:` guard fails and the sub-report stays `{}`);
otherwise the rounded total, the event count, the first event of maximal
amount, and the rounded average per event. -/
def snowfallAnalysis : List SnowEvent → Option SnowfallStats
  | [] => none
  | e :: es =>
    let amounts : List ℚ := (e :: es).map SnowEvent.amount
    let total : ℚ := amounts.sum
    let maxDaily : ℚ := (es.map SnowEvent.amount).foldl max e.amount
    let firstMax : SnowEvent := ((e :: es).filter (fun s => s.amount == maxDaily)).headI
    some { total_new_snow := round1 total
           snow_days := amounts.length
           biggest_amount := round1 maxDaily
           biggest_date := firstMax.date
           average_per_snow_day := round1 (total / (amounts.length : ℚ))
           events := e :: es }

/-- A JSON value, the shape of what `json.dumps` serializes at the tool
boundary. Objects are insertion-ordered key/value lists. -/
inductive JVal where
  | jnull : JVal
  | jnum : ℚ → JVal
  | jstr : String → JVal
  | jarr : List JVal → JVal
  | jobj : List (String × JVal) → JVal

/-- Key lookup inside a JSON object (`none` on non-objects). -/
def JVal.objLookup : JVal → String → Option JVal
  | .jobj fs, k => fs.lookup k
  | _, _ => none

/-- A possibly null date as JSON. -/
def renderDate : Option String → JVal
  | none => .jnull
  | some s => .jstr s

/-- A record-dict value as JSON. -/
def renderPyVal : PyVal → JVal
  | .vnull => .jnull
  | .vstr s => .jstr s
  | .vnum q => .jnum q

/-- A Normalized Record as the JSON object `json.dumps` serializes for it:
the record dict itself (with a `"date"`-coded element having overwritten
the `"date"` key, when present). -/
def renderRecord (r : Record) : JVal :=
  .jobj (r.pyDict.map (fun kv => (kv.1, renderPyVal kv.2)))

/-- The `snow_depth_analysis` field: the populated dict, or the initial `{}`
placeholder (`__init__.py` line 422) when the analysis did not run. -/
def renderDepthStats : Option DepthStats → JVal
  | none => .jobj []
  | some s => .jobj
      [("peak_depth", .jobj
          [("value", .jnum s.peak_value), ("date", renderDate s.peak_date),
           ("unit", .jstr "inches")]),
       ("average_depth", .jnum s.average_depth),
       ("days_with_snow", .jnum (s.days_with_snow : ℚ)),
       ("total_observations", .jnum (s.total_observations : ℚ))]

/-- The `swe_analysis` field, or its `{}` placeholder (`__init__.py` line 423). -/
def renderSweStats : Option SweStats → JVal
  | none => .jobj []
  | some s => .jobj
      [("peak_swe", .jobj
          [("value", .jnum s.peak_value), ("date", renderDate s.peak_date),
           ("unit", .jstr "inches")]),
       ("average_swe", .jnum s.average_swe),
       ("total_observations", .jnum (s.total_observations : ℚ))]

/-- One snowfall event as JSON. -/
def renderEvent (e : SnowEvent) : JVal :=
  .jobj [("date", renderDate e.date), ("amount", .jnum e.amount)]

/-- The `snowfall_analysis` field, or its `{}` placeholder (`__init__.py` line 424). -/
def renderSnowfallStats : Option SnowfallStats → JVal
  | none => .jobj []
  | some s => .jobj
      [("total_new_snow", .jnum s.total_new_snow),
       ("snow_days", .jnum (s.snow_days : ℚ)),
       ("biggest_day", .jobj
          [("amount", .jnum s.biggest_amount), ("date", renderDate s.biggest_date),
           ("unit", .jstr "inches")]),
       ("average_per_snow_day", .jnum s.average_per_snow_day),
       ("snowfall_events", .jarr (s.events.map renderEvent))]

/-- The Trend Summary before JSON rendering: the `result` dict of
`__init__.py` lines 415-426 after the three conditional analyses ran.
An `Option.none` sub-analysis models the `{}` placeholder that the
corresponding `if` left untouched. -/
structure TrendResult where
  station_triplet : String
  start_date : String
  end_date : String
  total_records : ℕ
  snow_depth_analysis : Option DepthStats
  swe_analysis : Option SweStats
  snowfall_analysis : Option SnowfallStats
  measurements : List Record

/-- Assemble the Trend Summary from the normalized records (`__init__.py`
lines 415-494). -/
def buildResult (triplet startDate endDate : String) (ms : List Record) : TrendResult :=
  { station_triplet := triplet
    start_date := startDate
    end_date := endDate
    total_records := ms.length
    snow_depth_analysis := snowDepthAnalysis (snowDepths ms)
    swe_analysis := sweAnalysis (sweSeries ms)
    snowfall_analysis := snowfallAnalysis (snowfallDays (snowDepths ms))
    measurements := ms }

/-- The key/value list of the `result` dict, in its literal order
(`__init__.py` lines 415-426): every key is present unconditionally; the
three analysis keys hold `{}` when their `if` did not fire. -/
def resultFields (r : TrendResult) : List (String × JVal) :=
  [("station_triplet", .jstr r.station_triplet),
   ("period", .jobj [("start_date", .jstr r.start_date), ("end_date", .jstr r.end_date)]),
   ("total_records", .jnum (r.total_records : ℚ)),
   ("snow_depth_analysis", renderDepthStats r.snow_depth_analysis),
   ("swe_analysis", renderSweStats r.swe_analysis),
   ("snowfall_analysis", renderSnowfallStats r.snowfall_analysis),
   ("measurements", .jarr (r.measurements.map renderRecord))]

/-- Specification-side reformulation of the snowfall-event derivation, for
the refinement claim: one event per adjacent pair of depth observations
exactly when the later depth is strictly greater, with amount the increase
rounded to 1 decimal. Adjacency is list adjacency (`zip` with the tail), so
pairs separated by multi-day data gaps still count as adjacent. -/
def adjacentEvents (sd : List (Option String × ℚ)) : List SnowEvent :=
  (sd.zip sd.tail).filterMap (fun pq =>
    if pq.1.2 < pq.2.2 then some ⟨pq.2.1, round1 (pq.2.2 - pq.1.2)⟩ else none)

/-- Strict ascending order on record dates: two dates are ordered when both
are actual strings in ascending lexicographic order. -/
def dateLt (a b : Option String) : Prop :=
  match a, b with
  | some x, some y => strLt x y
  | _, _ => False

instance dateLt.dec : ∀ a b : Option String, Decidable (dateLt a b)
  | some x, some y => inferInstanceAs (Decidable (strLt x y))
  | some _, none => .isFalse fun h => h
  | none, _ => .isFalse fun h => h

/-- Specification-side description of duplicate-element-code handling: the
values list of the last group carrying a given element code, if any. -/
def lastMatch (c : String) : List Group → Option (List RawValue)
  | [] => none
  | g :: gs => (lastMatch c gs).or (if g.elementCode.getD "" = c then some g.values else none)

/-- The error-shaped JSON response produced at the tool boundary: a single
`"error"` key (`__init__.py` lines 383, 413, 499 all use this shape). -/
def errorResponse (msg : String) : JVal :=
  .jobj [("error", .jstr msg)]

/-- The `analyze_snowpack_trends` tool (`__init__.py` lines 353-499), from
the already-fetched source response onward: empty response data yields the
no-data error object; a `TypeError` escaping normalization is caught by the
outer `except` and yields the boundary error object; an empty measurement
list yields the no-measurements error object; otherwise the Trend Summary. -/
def analyze_snowpack_trends (triplet startDate endDate : String)
    (data : List Station) : JVal :=
  if data.isEmpty then
    errorResponse ("No data available for analysis: " ++ triplet)
  else
    match parseMeasurements triplet data with
    | .error _ => errorResponse "Error analyzing snowpack trends: TypeError"
    | .ok ms =>
      if ms.isEmpty then errorResponse "No measurements found for analysis"
      else .jobj (resultFields (buildResult triplet startDate endDate ms))

/-! Helper lemmas. -/

theorem pyRoundInt_nonneg {q : ℚ} (h : 0 ≤ q) : 0 ≤ pyRoundInt q := by
  unfold pyRoundInt
  have hf : (0 : ℤ) ≤ ⌊q⌋ := Int.floor_nonneg.mpr h
  dsimp only
  split
  · exact hf
  · split
    · omega
    · split
      · exact hf
      · omega

theorem round1_nonneg {q : ℚ} (h : 0 ≤ q) : 0 ≤ round1 q := by
  unfold round1 pyRound
  have h10 : (0 : ℚ) ≤ q * 10 ^ 1 := by positivity
  have := pyRoundInt_nonneg h10
  have hcast : (0 : ℚ) ≤ (pyRoundInt (q * 10 ^ 1) : ℚ) := by exact_mod_cast this
  positivity

theorem le_foldl_max (a : ℚ) (l : List ℚ) : a ≤ l.foldl max a := by
  induction l generalizing a with
  | nil => exact le_refl a
  | cons b l ih => exact le_trans (le_max_left a b) (ih (max a b))

theorem mem_le_foldl_max {x : ℚ} {l : List ℚ} (h : x ∈ l) (a : ℚ) :
    x ≤ l.foldl max a := by
  induction l generalizing a with
  | nil => cases h
  | cons b l ih =>
    rcases List.mem_cons.mp h with rfl | hm
    · exact le_trans (le_max_right a x) (le_foldl_max _ l)
    · exact ih hm (max a b)

theorem foldl_max_mem (a : ℚ) (l : List ℚ) :
    l.foldl max a = a ∨ l.foldl max a ∈ l := by
  induction l generalizing a with
  | nil => exact Or.inl rfl
  | cons b l ih =>
    rcases ih (max a b) with h | h
    · rcases max_choice a b with hab | hab
      · exact Or.inl (by rw [List.foldl_cons, h, hab])
      · exact Or.inr (by rw [List.foldl_cons, h, hab]; exact List.mem_cons_self b l)
    · exact Or.inr (List.mem_cons_of_mem b h)

theorem filter_headI_decomp {α : Type} [Inhabited α] (p : α → Bool) :
    ∀ l : List α, (∃ x ∈ l, p x = true) →
      ∃ pre x suf, l = pre ++ x :: suf ∧ p x = true ∧
        (∀ y ∈ pre, p y = false) ∧ (l.filter p).headI = x := by
  intro l
  induction l with
  | nil => rintro ⟨x, hx, -⟩; cases hx
  | cons a l ih =>
    intro hex
    cases ha : p a with
    | true =>
      exact ⟨[], a, l, rfl, ha, fun y hy => absurd hy (List.not_mem_nil y),
        by simp [List.filter_cons, ha]⟩
    | false =>
      have hex' : ∃ x ∈ l, p x = true := by
        rcases hex with ⟨x, hx, hpx⟩
        rcases List.mem_cons.mp hx with rfl | hm
        · rw [ha] at hpx; cases hpx
        · exact ⟨x, hm, hpx⟩
      rcases ih hex' with ⟨pre, x, suf, hl, hpx, hpre, hhead⟩
      refine ⟨a :: pre, x, suf, by rw [hl, List.cons_append], hpx, ?_, ?_⟩
      · intro y hy
        rcases List.mem_cons.mp hy with rfl | hm
        · exact ha
        · exact hpre y hm
      · simpa [List.filter_cons, ha] using hhead

theorem headI_map {α β : Type} [Inhabited α] [Inhabited β] (f : α → β) :
    ∀ l : List α, l ≠ [] → (l.map f).headI = f l.headI
  | [], h => absurd rfl h
  | _ :: _, _ => rfl

/-- Combined shape of Python `max` + first-occurrence filter lookup: the
seeded left fold of `max` over `f` is an attained upper bound, and the head
of the `f`-equals-max filter is the first element achieving it. -/
theorem firstMax_spec {α : Type} [Inhabited α] (f : α → ℚ) (a : α) (l : List α) :
    (∀ x ∈ a :: l, f x ≤ (l.map f).foldl max (f a)) ∧
    (∃ x ∈ a :: l, f x = (l.map f).foldl max (f a)) ∧
    ∃ pre x suf, a :: l = pre ++ x :: suf ∧ f x = (l.map f).foldl max (f a) ∧
      (∀ y ∈ pre, f y ≠ (l.map f).foldl max (f a)) ∧
      ((a :: l).filter (fun y => f y == (l.map f).foldl max (f a))).headI = x := by
  set m := (l.map f).foldl max (f a) with hm
  have hub : ∀ x ∈ a :: l, f x ≤ m := by
    intro x hx
    rcases List.mem_cons.mp hx with rfl | hmem
    · exact le_foldl_max (f x) (l.map f)
    · exact mem_le_foldl_max (List.mem_map_of_mem f hmem) (f a)
  have hatt : ∃ x ∈ a :: l, f x = m := by
    rcases foldl_max_mem (f a) (l.map f) with h | h
    · exact ⟨a, List.mem_cons_self a l, h.symm⟩
    · rcases List.mem_map.mp h with ⟨x, hx, hfx⟩
      exact ⟨x, List.mem_cons_of_mem a hx, hfx⟩
  refine ⟨hub, hatt, ?_⟩
  have hex : ∃ x ∈ a :: l, (fun y => f y == m) x = true := by
    rcases hatt with ⟨x, hx, hfx⟩
    exact ⟨x, hx, by simpa using hfx⟩
  rcases filter_headI_decomp (fun y => f y == m) (a :: l) hex with
    ⟨pre, x, suf, hl, hpx, hpre, hhead⟩
  refine ⟨pre, x, suf, hl, by simpa using hpx, ?_, hhead⟩
  intro y hy
  have := hpre y hy
  simpa using this

theorem snowfallDays_eq_adjacentEvents : ∀ sd, snowfallDays sd = adjacentEvents sd
  | [] => rfl
  | [_] => rfl
  | p :: q :: rest => by
    have ih := snowfallDays_eq_adjacentEvents (q :: rest)
    simp only [snowfallDays]
    rw [ih]
    by_cases h : p.2 < q.2 <;>
      simp [adjacentEvents, List.zip_cons_cons, List.filterMap_cons, h]

theorem snowfallDays_amount_nonneg : ∀ sd, ∀ e ∈ snowfallDays sd, 0 ≤ e.amount
  | [] => by intro e he; cases he
  | [_] => by intro e he; cases he
  | p :: q :: rest => by
    intro e he
    have ih := snowfallDays_amount_nonneg (q :: rest)
    simp only [snowfallDays] at he
    rcases List.mem_append.mp he with h1 | h2
    · by_cases h : p.2 < q.2
      · rw [if_pos h] at h1
        rcases List.mem_singleton.mp h1 with rfl
        exact round1_nonneg (le_of_lt (sub_pos.mpr h))
      · rw [if_neg h] at h1; cases h1
    · exact ih e h2

theorem sortDates_ok_sorted {ds out : List (Option String)} (hnd : ds.Nodup)
    (h : sortDates ds = .ok out) : out.Pairwise dateLt ∧ out.Nodup := by
  unfold sortDates at h
  split at h
  · split at h
    · cases h
    · cases h
      exact ⟨List.pairwise_singleton _ _, List.nodup_singleton _⟩
  · cases h
    have h1 : (ds.filterMap id).Nodup := by
      refine hnd.filterMap ?_
      intro a a' b hb hb'
      cases a <;> cases a' <;> simp_all
    have hnodup : (List.insertionSort strLe (ds.filterMap id)).Nodup :=
      ((List.perm_insertionSort strLe _).nodup_iff).mpr h1
    have hsorted : List.Sorted strLe (List.insertionSort strLe (ds.filterMap id)) :=
      List.sorted_insertionSort strLe _
    have hle : List.Sorted (· ≤ ·) (List.insertionSort strLe (ds.filterMap id)) :=
      hsorted.imp (fun hab => (strLe_iff_le _ _).mp hab)
    have hlt : List.Sorted (· < ·) (List.insertionSort strLe (ds.filterMap id)) :=
      hle.lt_of_le hnodup
    constructor
    · rw [List.pairwise_map]
      exact hlt.imp (fun hab => (strLt_iff_lt _ _).mpr hab)
    · exact hnodup.map (Option.some_injective String)

theorem optOr_none {α : Type} (a : Option α) : a.or none = a := by
  cases a <;> rfl

theorem optOr_assoc {α : Type} (a b c : Option α) : (a.or b).or c = a.or (b.or c) := by
  cases a <;> rfl

theorem lookup_pyInsert {α : Type} (k c : String) (v : α) :
    ∀ ed : List (String × α), (pyInsert k v ed).lookup c =
      if c = k then some v else ed.lookup c := by
  intro ed
  induction ed with
  | nil =>
    by_cases hc : c = k
    · simp [pyInsert, List.lookup, hc]
    · have hb : (c == k) = false := beq_eq_false_iff_ne.mpr hc
      simp [pyInsert, List.lookup, hb, hc]
  | cons p rest ih =>
    obtain ⟨k', v'⟩ := p
    by_cases hk : k' = k
    · subst hk
      by_cases hc : c = k'
      · simp [pyInsert, List.lookup, hc]
      · have hb : (c == k') = false := beq_eq_false_iff_ne.mpr hc
        simp [pyInsert, List.lookup, hb, hc]
    · simp only [pyInsert, if_neg hk]
      by_cases hc : c = k'
      · subst hc
        have hb : (c == c) = true := beq_self_eq_true c
        simp [List.lookup, hb, hk]
      · have hb : (c == k') = false := beq_eq_false_iff_ne.mpr hc
        simp [List.lookup, hb, hc, ih]

theorem mem_pyInsert {α : Type} {k : String} {w : α} {c : String} {v : α} :
    ∀ ed : List (String × α), (c, v) ∈ pyInsert k w ed → c = k ∨ (c, v) ∈ ed := by
  intro ed
  induction ed with
  | nil =>
    intro h
    have h1 := List.mem_singleton.mp h
    have : c = k ∧ v = w := by simpa [Prod.ext_iff] using h1
    exact Or.inl this.1
  | cons p rest ih =>
    obtain ⟨k', v'⟩ := p
    intro h
    by_cases hk : k' = k
    · simp only [pyInsert, if_pos hk] at h
      rcases List.mem_cons.mp h with h1 | h2
      · have : c = k ∧ v = w := by simpa [Prod.ext_iff] using h1
        exact Or.inl this.1
      · exact Or.inr (List.mem_cons_of_mem _ h2)
    · simp only [pyInsert, if_neg hk] at h
      rcases List.mem_cons.mp h with h1 | h2
      · exact Or.inr (List.mem_cons.mpr (Or.inl h1))
      · rcases ih h2 with h3 | h3
        · exact Or.inl h3
        · exact Or.inr (List.mem_cons_of_mem _ h3)

theorem buildElementData_code_origin :
    ∀ (gs : List Group) (ed : List (String × List RawValue)) (c : String)
      (vs : List RawValue),
      (c, vs) ∈ gs.foldl (fun ed g => pyInsert (g.elementCode.getD "") g.values ed) ed →
      (∃ vs', (c, vs') ∈ ed) ∨ ∃ g ∈ gs, g.elementCode.getD "" = c := by
  intro gs
  induction gs with
  | nil => intro ed c vs h; exact Or.inl ⟨vs, h⟩
  | cons g gs ih =>
    intro ed c vs h
    simp only [List.foldl_cons] at h
    rcases ih _ c vs h with ⟨vs', h'⟩ | ⟨g', hg', hc⟩
    · rcases mem_pyInsert _ h' with h1 | h2
      · exact Or.inr ⟨g, List.mem_cons_self g gs, h1.symm⟩
      · exact Or.inl ⟨vs', h2⟩
    · exact Or.inr ⟨g', List.mem_cons_of_mem g hg', hc⟩

theorem mem_fields_sub {ed : List (String × List RawValue)} {d : Option String}
    {c : String} {v : Option ℚ} (h : (c, v) ∈ (buildRecord ed d).fields) :
    ∃ vs, (c, vs) ∈ ed := by
  simp only [buildRecord, List.mem_filterMap, Option.map_eq_some'] at h
  rcases h with ⟨⟨c', vs⟩, hmem, w, hw, heq⟩
  obtain ⟨rfl, rfl⟩ : c' = c ∧ w = v := by simpa [Prod.ext_iff] using heq
  exact ⟨vs, hmem⟩

theorem lastFieldAssign_eq_none {c : String} :
    ∀ fs : List (String × Option ℚ), (∀ cv ∈ fs, cv.1 ≠ c) →
      lastFieldAssign c fs = none := by
  intro fs
  induction fs with
  | nil => intro _; rfl
  | cons cv fs ih =>
    intro h
    simp only [lastFieldAssign]
    rw [ih (fun x hx => h x (List.mem_cons_of_mem cv hx)),
      if_neg (h cv (List.mem_cons_self cv fs))]
    rfl

theorem foldl_fields_lookup (c : String) :
    ∀ (fs : List (String × Option ℚ)) (init : List (String × PyVal)),
      ((fs.foldl (fun d cv => pyInsert cv.1 (pyOfValue cv.2) d) init).lookup c)
        = (lastFieldAssign c fs).or (init.lookup c) := by
  intro fs
  induction fs with
  | nil => intro init; rfl
  | cons cv fs ih =>
    intro init
    simp only [List.foldl_cons, lastFieldAssign]
    rw [ih, lookup_pyInsert, optOr_assoc]
    congr 1
    by_cases hc : c = cv.1
    · rw [if_pos hc, if_pos hc.symm]
      rfl
    · rw [if_neg hc, if_neg (fun h => hc h.symm)]
      rfl

theorem pyDate_of_no_date_field {r : Record} (h : ∀ cv ∈ r.fields, cv.1 ≠ "date") :
    r.pyDate = pyOfDate r.date := by
  show ((r.pyDict).lookup "date").getD .vnull = pyOfDate r.date
  unfold Record.pyDict
  rw [foldl_fields_lookup, lastFieldAssign_eq_none r.fields h]
  rfl

theorem pyOfDate_injective : Function.Injective pyOfDate := by
  intro a b h
  cases a <;> cases b <;> simp_all [pyOfDate]

theorem normalize_ok_dates_sorted :
    ∀ gs ms, normalize gs = .ok ms →
      (ms.map Record.date).Pairwise dateLt ∧ (ms.map Record.date).Nodup := by
  intro gs ms h
  simp only [normalize] at h
  cases hs : sortDates (allDates (buildElementData gs)) with
  | error e => rw [hs] at h; cases h
  | ok ds =>
    rw [hs] at h
    have hds : ms = ds.map (buildRecord (buildElementData gs)) := by
      cases h; rfl
    have hdate : ms.map Record.date = ds := by
      subst hds
      rw [List.map_map]
      exact List.map_id' ds
    rw [hdate]
    exact sortDates_ok_sorted (List.nodup_dedup _) hs

/-! Claim theorems. -/

/-- C1: for every date-ordered sequence of depth observations, the
snowfall-event derivation emits one event per adjacent pair exactly when the
later depth is strictly greater than the earlier, with amount the increase
rounded to 1 decimal (`adjacentEvents` is that pairwise description, with
adjacency being list adjacency — multi-day gaps still count as adjacent);
zero-or-negative deltas never produce an event, and every emitted amount is
non-negative. -/
theorem C1_snowfall_event_derivation :
    ∀ sd : List (Option String × ℚ),
      snowfallDays sd = adjacentEvents sd ∧ ∀ e ∈ snowfallDays sd, 0 ≤ e.amount :=
  fun sd => ⟨snowfallDays_eq_adjacentEvents sd, snowfallDays_amount_nonneg sd⟩

theorem C1_witness :
    snowfallDays [(some "d1", (10:ℚ)), (some "d2", 14)] =
      adjacentEvents [(some "d1", 10), (some "d2", 14)] ∧
    0 ≤ (SnowEvent.mk (some "d2") (round1 ((14:ℚ) - 10))).amount :=
  ⟨(C1_snowfall_event_derivation _).1,
   (C1_snowfall_event_derivation [(some "d1", (10:ℚ)), (some "d2", 14)]).2 _
     (show _ ∈ [SnowEvent.mk (some "d2") (round1 ((14:ℚ) - 10))] from
       List.mem_singleton.mpr rfl)⟩

/-- C2 counterexample: for the single group with element code literally
`"date"` and values `[{d1,7}, {d2,7}]`, the loop's `record[code] = value`
assignment overwrites the `"date"` key of both records with the number 7,
so the program emits two records whose `"date"` entries are both 7 —
duplicated and not strictly ascending — refuting the claim as universally
stated. -/
theorem C2_counterexample :
    normalize [⟨some "date", [⟨some "d1", some 7⟩, ⟨some "d2", some 7⟩]⟩] =
      .ok [⟨some "d1", [("date", some 7)]⟩, ⟨some "d2", [("date", some 7)]⟩] ∧
    (([⟨some "d1", [("date", some 7)]⟩, ⟨some "d2", [("date", some 7)]⟩] :
        List Record).map Record.pyDate) = [.vnum 7, .vnum 7] ∧
    ¬ (([PyVal.vnum 7, PyVal.vnum 7]).Nodup) :=
  ⟨by decide, by decide, by decide⟩

/-- C2 (amended): for every input list of per-element groups none of which
carries the literal element code `"date"`, whenever normalization succeeds
the emitted records' `"date"` entries are strictly ascending with no
duplicates — in particular there is at most one record per distinct date.
(A `"date"`-coded group overwrites the `"date"` key and can break this, as
the counterexample shows.) -/
theorem C2_dates_ascending_no_date_element :
    ∀ gs ms, (∀ g ∈ gs, g.elementCode.getD "" ≠ "date") → normalize gs = .ok ms →
      (ms.map Record.pyDate).Pairwise pyDateLt ∧ (ms.map Record.pyDate).Nodup := by
  intro gs ms hnd h
  obtain ⟨hpair, hnodup⟩ := normalize_ok_dates_sorted gs ms h
  have hpt : ∀ r ∈ ms, Record.pyDate r = pyOfDate r.date := by
    intro r hr
    simp only [normalize] at h
    cases hs : sortDates (allDates (buildElementData gs)) with
    | error e => rw [hs] at h; cases h
    | ok ds =>
      rw [hs] at h
      cases h
      rcases List.mem_map.mp hr with ⟨d, _, rfl⟩
      refine pyDate_of_no_date_field ?_
      intro cv hcv
      obtain ⟨c, v⟩ := cv
      intro hceq
      subst hceq
      rcases mem_fields_sub hcv with ⟨vs, hvs⟩
      rcases buildElementData_code_origin gs [] "date" vs hvs with ⟨vs', h0⟩ | ⟨g, hg, hco⟩
      · exact absurd h0 (List.not_mem_nil _)
      · exact hnd g hg hco
  have hmeq : ms.map Record.pyDate = (ms.map Record.date).map pyOfDate := by
    rw [List.map_map]
    exact List.map_congr_left (fun r hr => hpt r hr)
  constructor
  · rw [hmeq, List.pairwise_map]
    refine hpair.imp ?_
    intro a b hab
    cases a with
    | none => exact hab.elim
    | some x =>
      cases b with
      | none => exact hab.elim
      | some y => exact hab
  · rw [hmeq]
    exact hnodup.map pyOfDate_injective

theorem C2_witness :
    normalize [⟨some "SNWD", [⟨some "d2", some 5⟩]⟩, ⟨some "WTEQ", [⟨some "d1", some 3⟩]⟩] =
      .ok [⟨some "d1", [("WTEQ", some 3)]⟩, ⟨some "d2", [("SNWD", some 5)]⟩] ∧
    (([⟨some "d1", [("WTEQ", some 3)]⟩, ⟨some "d2", [("SNWD", some 5)]⟩] :
        List Record).map Record.pyDate).Pairwise pyDateLt ∧
    (([⟨some "d1", [("WTEQ", some 3)]⟩, ⟨some "d2", [("SNWD", some 5)]⟩] :
        List Record).map Record.pyDate).Nodup :=
  ⟨by decide,
   (C2_dates_ascending_no_date_element
     [⟨some "SNWD", [⟨some "d2", some 5⟩]⟩, ⟨some "WTEQ", [⟨some "d1", some 3⟩]⟩]
     [⟨some "d1", [("WTEQ", some 3)]⟩, ⟨some "d2", [("SNWD", some 5)]⟩]
     (by decide) (by decide)).1,
   (C2_dates_ascending_no_date_element
     [⟨some "SNWD", [⟨some "d2", some 5⟩]⟩, ⟨some "WTEQ", [⟨some "d1", some 3⟩]⟩]
     [⟨some "d1", [("WTEQ", some 3)]⟩, ⟨some "d2", [("SNWD", some 5)]⟩]
     (by decide) (by decide)).2⟩

/-- C3 counterexample: a source series whose single observation has an
explicit null value produces a Normalized Record in which the element key
`"SNWD"` is present and mapped to null — the claim that a record never
contains an element key mapped to a null value fails at this input. -/
theorem C3_counterexample :
    normalize [⟨some "SNWD", [⟨some "d1", none⟩]⟩] =
      .ok [⟨some "d1", [("SNWD", none)]⟩] ∧
    (Record.mk (some "d1") [("SNWD", none)]).fields.lookup "SNWD" = some none :=
  ⟨by decide, by decide⟩

/-- C3 (amended): a Normalized Record's fields are exactly the elements that
have a raw values entry on the record's date, each mapped to the first such
entry's value — so an explicit null in the source is stored as a null value
under the element key (present and null), while only elements with no entry
on that date are absent. -/
theorem C3_null_stored_not_absent :
    ∀ gs ms r, normalize gs = .ok ms → r ∈ ms →
      ∀ c v, (c, v) ∈ r.fields ↔
        ∃ vs, (c, vs) ∈ buildElementData gs ∧ firstValueOn r.date vs = some v := by
  intro gs ms r h hr c v
  simp only [normalize] at h
  cases hs : sortDates (allDates (buildElementData gs)) with
  | error e => rw [hs] at h; cases h
  | ok ds =>
    rw [hs] at h
    have hds : ms = ds.map (buildRecord (buildElementData gs)) := by
      cases h; rfl
    subst hds
    rcases List.mem_map.mp hr with ⟨d, _, rfl⟩
    simp only [buildRecord, List.mem_filterMap, Option.map_eq_some']
    constructor
    · rintro ⟨⟨c', vs⟩, hmem, w, hw, heq⟩
      obtain ⟨rfl, rfl⟩ : c' = c ∧ w = v := by simpa [Prod.ext_iff] using heq
      exact ⟨vs, hmem, hw⟩
    · rintro ⟨vs, hmem, hw⟩
      exact ⟨(c, vs), hmem, v, hw, rfl⟩

theorem C3_witness :
    ("SNWD", (none : Option ℚ)) ∈ (Record.mk (some "d1") [("SNWD", none)]).fields ↔
      ∃ vs, ("SNWD", vs) ∈ buildElementData [⟨some "SNWD", [⟨some "d1", none⟩]⟩] ∧
        firstValueOn (Record.mk (some "d1") [("SNWD", none)]).date vs = some none :=
  C3_null_stored_not_absent [⟨some "SNWD", [⟨some "d1", none⟩]⟩]
    [⟨some "d1", [("SNWD", none)]⟩] (Record.mk (some "d1") [("SNWD", none)])
    (by decide) (by decide) "SNWD" none

/-- C4: when an element's values list holds two entries with the same date,
normalization keeps the earliest-encountered value (first-match-wins): the
concrete duplicate-date series keeps 5, not 9, and in general a value
selected for a date is the first entry of the list carrying that date. -/
theorem C4_first_match_wins :
    (normalize [⟨some "SNWD", [⟨some "d1", some 5⟩, ⟨some "d1", some 9⟩]⟩] =
      .ok [⟨some "d1", [("SNWD", some 5)]⟩]) ∧
    ∀ (d : Option String) (vs : List RawValue) (v : Option ℚ),
      firstValueOn d vs = some v →
        ∃ pre rv suf, vs = pre ++ rv :: suf ∧ rv.date = d ∧ rv.value = v ∧
          ∀ u ∈ pre, u.date ≠ d := by
  refine ⟨by decide, ?_⟩
  intro d vs
  induction vs with
  | nil => intro v h; cases h
  | cons w ws ih =>
    intro v h
    simp only [firstValueOn] at h
    by_cases hw : w.date = d
    · rw [if_pos hw] at h
      cases h
      exact ⟨[], w, ws, rfl, hw, rfl, fun u hu => absurd hu (List.not_mem_nil u)⟩
    · rw [if_neg hw] at h
      rcases ih v h with ⟨pre, rv, suf, hvs, hd, hv, hpre⟩
      refine ⟨w :: pre, rv, suf, by rw [hvs, List.cons_append], hd, hv, ?_⟩
      intro u hu
      rcases List.mem_cons.mp hu with rfl | hm
      · exact hw
      · exact hpre u hm

theorem C4_witness :
    ∃ pre rv suf,
      ([⟨some "d1", some 5⟩, ⟨some "d1", some 9⟩] : List RawValue) = pre ++ rv :: suf ∧
      rv.date = some "d1" ∧ rv.value = some 5 ∧ ∀ u ∈ pre, u.date ≠ some "d1" :=
  C4_first_match_wins.2 (some "d1") [⟨some "d1", some 5⟩, ⟨some "d1", some 9⟩]
    (some 5) (by decide)

/-- C5 counterexample: for the single depth observation 41/4 = 10.25 the
reported peak value is `round(10.25, 1) = 10.2 = 51/5`, which differs from
the maximum depth value 41/4 — the code rounds the reported peak to 1
decimal, so the claim that the analysis reports the maximum depth value
itself fails at this input. -/
theorem C5_counterexample :
    snowDepthAnalysis [(some "d1", (41/4 : ℚ))] =
      some { peak_value := 51/5, peak_date := some "d1", average_depth := 51/5,
             days_with_snow := 1, total_observations := 1 } ∧
    (51/5 : ℚ) ≠ 41/4 := by
  constructor
  · norm_num [snowDepthAnalysis, round1, pyRound, pyRoundInt]
  · norm_num

/-- C5 (amended): for every non-empty depth-filtered series, the snow-depth
analysis reports as peak the maximum depth value rounded to 1 decimal,
together with the first date in series order achieving the exact maximum;
in particular for depths [10, 15, 15, 12] on dates d1..d4 the peak date is
d2 (and the peak value 15 is unchanged by rounding). -/
theorem C5_peak_rounded_first_max :
    (∀ sd stats, snowDepthAnalysis sd = some stats →
      ∃ m, (∀ q ∈ sd, q.2 ≤ m) ∧ (∃ q ∈ sd, q.2 = m) ∧
        stats.peak_value = round1 m ∧
        ∃ pre q suf, sd = pre ++ q :: suf ∧ q.2 = m ∧
          (∀ r ∈ pre, r.2 ≠ m) ∧ stats.peak_date = q.1) ∧
    snowDepthAnalysis
        [(some "d1", 10), (some "d2", 15), (some "d3", 15), (some "d4", 12)] =
      some { peak_value := 15, peak_date := some "d2", average_depth := 13,
             days_with_snow := 4, total_observations := 4 } := by
  constructor
  · intro sd stats h
    cases sd with
    | nil => cases h
    | cons p ps =>
      simp only [snowDepthAnalysis] at h
      cases h
      obtain ⟨hub, hatt, pre, x, suf, hl, hx, hpre, hhead⟩ := firstMax_spec Prod.snd p ps
      refine ⟨(ps.map Prod.snd).foldl max p.2, hub, hatt, rfl, pre, x, suf, hl, hx,
        hpre, ?_⟩
      have hxmem : x ∈ p :: ps := by
        rw [hl]; exact List.mem_append_right pre (List.mem_cons_self x suf)
      have hne :
          ((p :: ps).filter (fun y => y.2 == (ps.map Prod.snd).foldl max p.2)) ≠ [] :=
        List.ne_nil_of_mem (a := x) (List.mem_filter.mpr ⟨hxmem, by simpa using hx⟩)
      show (((p :: ps).filter (fun y => y.2 == (ps.map Prod.snd).foldl max p.2)).map
          Prod.fst).headI = x.1
      rw [headI_map _ _ hne, hhead]
  · have e1 : ((10:ℚ) == 15) = false := by rw [beq_eq_false_iff_ne]; norm_num
    have e2 : ((15:ℚ) == 15) = true := by rw [beq_iff_eq]
    have e3 : ((12:ℚ) == 15) = false := by rw [beq_eq_false_iff_ne]; norm_num
    norm_num [snowDepthAnalysis, round1, pyRound, pyRoundInt, max_def, List.filter,
      e1, e2, e3]

theorem C5_witness :
    ∃ m,
      (∀ q ∈ [(some "d1", (10:ℚ)), (some "d2", 15), (some "d3", 15), (some "d4", 12)],
        q.2 ≤ m) ∧
      (∃ q ∈ [(some "d1", (10:ℚ)), (some "d2", 15), (some "d3", 15), (some "d4", 12)],
        q.2 = m) ∧
      ({ peak_value := 15, peak_date := some "d2", average_depth := 13,
         days_with_snow := 4, total_observations := 4 } : DepthStats).peak_value =
        round1 m ∧
      ∃ pre q suf,
        [(some "d1", (10:ℚ)), (some "d2", 15), (some "d3", 15), (some "d4", 12)] =
          pre ++ q :: suf ∧ q.2 = m ∧ (∀ r ∈ pre, r.2 ≠ m) ∧
        ({ peak_value := 15, peak_date := some "d2", average_depth := 13,
           days_with_snow := 4, total_observations := 4 } : DepthStats).peak_date = q.1 :=
  C5_peak_rounded_first_max.1
    [(some "d1", (10:ℚ)), (some "d2", 15), (some "d3", 15), (some "d4", 12)]
    { peak_value := 15, peak_date := some "d2", average_depth := 13,
      days_with_snow := 4, total_observations := 4 }
    C5_peak_rounded_first_max.2

/-- C6: for depths [(d1,10), (d2,14), (d3,14), (d4,20)] the derivation
produces exactly the events {d2: 4} and {d4: 6} and the summary reports
total_new_snow = 10, snow_days = 2, biggest_day = 6 on d4 and
average_per_snow_day = 5; in general the summary reports the rounded total
of the event amounts, the event count, the first event of maximal amount
(first occurrence wins ties, amount rounded to 1 decimal), and total/count
rounded to 1 decimal. -/
theorem C6_snowfall_summary :
    (∀ evs st, snowfallAnalysis evs = some st →
      st.total_new_snow = round1 ((evs.map SnowEvent.amount).sum) ∧
      st.snow_days = evs.length ∧
      st.average_per_snow_day =
        round1 ((evs.map SnowEvent.amount).sum / (evs.length : ℚ)) ∧
      st.events = evs ∧
      ∃ pre e suf, evs = pre ++ e :: suf ∧ (∀ x ∈ evs, x.amount ≤ e.amount) ∧
        (∀ x ∈ pre, x.amount ≠ e.amount) ∧
        st.biggest_amount = round1 e.amount ∧ st.biggest_date = e.date) ∧
    snowfallDays [(some "d1", 10), (some "d2", 14), (some "d3", 14), (some "d4", 20)] =
      [⟨some "d2", 4⟩, ⟨some "d4", 6⟩] ∧
    snowfallAnalysis [⟨some "d2", 4⟩, ⟨some "d4", 6⟩] =
      some { total_new_snow := 10, snow_days := 2, biggest_amount := 6,
             biggest_date := some "d4", average_per_snow_day := 5,
             events := [⟨some "d2", 4⟩, ⟨some "d4", 6⟩] } := by
  refine ⟨?_, ?_, ?_⟩
  · intro evs st h
    cases evs with
    | nil => cases h
    | cons e es =>
      simp only [snowfallAnalysis] at h
      cases h
      obtain ⟨hub, hatt, pre, x, suf, hl, hx, hpre, hhead⟩ :=
        firstMax_spec SnowEvent.amount e es
      refine ⟨rfl, List.length_map _ _, by rw [List.length_map], rfl,
        pre, x, suf, hl, ?_, ?_, ?_, ?_⟩
      · intro y hy; rw [hx]; exact hub y hy
      · intro y hy; rw [hx]; exact hpre y hy
      · show round1 ((es.map SnowEvent.amount).foldl max e.amount) = round1 x.amount
        rw [hx]
      · show (((e :: es).filter
            (fun s => s.amount == (es.map SnowEvent.amount).foldl max e.amount)).headI).date
          = x.date
        rw [hhead]
  · norm_num [snowfallDays, round1, pyRound, pyRoundInt]
  · have e1 : ((4:ℚ) == 6) = false := by rw [beq_eq_false_iff_ne]; norm_num
    have e2 : ((6:ℚ) == 6) = true := by rw [beq_iff_eq]
    norm_num [snowfallAnalysis, round1, pyRound, pyRoundInt, max_def, List.filter,
      e1, e2]

theorem C6_witness :
    ({ total_new_snow := 10, snow_days := 2, biggest_amount := 6,
       biggest_date := some "d4", average_per_snow_day := 5,
       events := [⟨some "d2", 4⟩, ⟨some "d4", 6⟩] } : SnowfallStats).total_new_snow =
      round1 ((([⟨some "d2", 4⟩, ⟨some "d4", 6⟩] : List SnowEvent).map
        SnowEvent.amount).sum) ∧
    ({ total_new_snow := 10, snow_days := 2, biggest_amount := 6,
       biggest_date := some "d4", average_per_snow_day := 5,
       events := [⟨some "d2", 4⟩, ⟨some "d4", 6⟩] } : SnowfallStats).snow_days =
      ([⟨some "d2", 4⟩, ⟨some "d4", 6⟩] : List SnowEvent).length ∧
    ({ total_new_snow := 10, snow_days := 2, biggest_amount := 6,
       biggest_date := some "d4", average_per_snow_day := 5,
       events := [⟨some "d2", 4⟩, ⟨some "d4", 6⟩] } : SnowfallStats).average_per_snow_day =
      round1 ((([⟨some "d2", 4⟩, ⟨some "d4", 6⟩] : List SnowEvent).map
        SnowEvent.amount).sum /
        ((([⟨some "d2", 4⟩, ⟨some "d4", 6⟩] : List SnowEvent).length : ℚ))) ∧
    ({ total_new_snow := 10, snow_days := 2, biggest_amount := 6,
       biggest_date := some "d4", average_per_snow_day := 5,
       events := [⟨some "d2", 4⟩, ⟨some "d4", 6⟩] } : SnowfallStats).events =
      [⟨some "d2", 4⟩, ⟨some "d4", 6⟩] ∧
    ∃ pre e suf,
      ([⟨some "d2", 4⟩, ⟨some "d4", 6⟩] : List SnowEvent) = pre ++ e :: suf ∧
      (∀ x ∈ ([⟨some "d2", 4⟩, ⟨some "d4", 6⟩] : List SnowEvent),
        x.amount ≤ e.amount) ∧
      (∀ x ∈ pre, x.amount ≠ e.amount) ∧
      ({ total_new_snow := 10, snow_days := 2, biggest_amount := 6,
         biggest_date := some "d4", average_per_snow_day := 5,
         events := [⟨some "d2", 4⟩, ⟨some "d4", 6⟩] } : SnowfallStats).biggest_amount =
        round1 e.amount ∧
      ({ total_new_snow := 10, snow_days := 2, biggest_amount := 6,
         biggest_date := some "d4", average_per_snow_day := 5,
         events := [⟨some "d2", 4⟩, ⟨some "d4", 6⟩] } : SnowfallStats).biggest_date =
        e.date :=
  C6_snowfall_summary.1 [⟨some "d2", 4⟩, ⟨some "d4", 6⟩]
    { total_new_snow := 10, snow_days := 2, biggest_amount := 6,
      biggest_date := some "d4", average_per_snow_day := 5,
      events := [⟨some "d2", 4⟩, ⟨some "d4", 6⟩] }
    C6_snowfall_summary.2.2

/-- C7 counterexample: for a response with a WTEQ-only series (no non-null
SNWD value and hence no snowfall events), the Trend Summary still carries
the keys `snow_depth_analysis` and `snowfall_analysis`, each holding the
empty object `{}` — the sub-reports are not omitted entirely from the
result. -/
theorem C7_counterexample :
    (analyze_snowpack_trends "T" "s" "e"
      [⟨some "T", [⟨some "WTEQ", [⟨some "d1", some 3⟩]⟩]⟩]).objLookup
      "snow_depth_analysis" = some (.jobj []) ∧
    (analyze_snowpack_trends "T" "s" "e"
      [⟨some "T", [⟨some "WTEQ", [⟨some "d1", some 3⟩]⟩]⟩]).objLookup
      "snowfall_analysis" = some (.jobj []) :=
  ⟨rfl, rfl⟩

/-- C7 (amended): the `snow_depth_analysis` and `snowfall_analysis` keys are
always present in the Trend Summary; when no record has a non-null SNWD
value (resp. when no snowfall event is derived) the key is left as the
initial empty object `{}` rather than being populated with zeros. -/
theorem C7_empty_subreports_not_omitted :
    ∀ t s e ms,
      ((resultFields (buildResult t s e ms)).lookup "snow_depth_analysis").isSome
        = true ∧
      ((resultFields (buildResult t s e ms)).lookup "snowfall_analysis").isSome
        = true ∧
      (snowDepths ms = [] →
        (resultFields (buildResult t s e ms)).lookup "snow_depth_analysis" =
          some (.jobj [])) ∧
      (snowfallDays (snowDepths ms) = [] →
        (resultFields (buildResult t s e ms)).lookup "snowfall_analysis" =
          some (.jobj [])) := by
  intro t s e ms
  refine ⟨rfl, rfl, ?_, ?_⟩
  · intro h
    show some (renderDepthStats (snowDepthAnalysis (snowDepths ms))) = some (.jobj [])
    rw [h]
    rfl
  · intro h
    show some (renderSnowfallStats (snowfallAnalysis (snowfallDays (snowDepths ms)))) =
      some (.jobj [])
    rw [h]
    rfl

theorem C7_witness :
    ((resultFields (buildResult "T" "s" "e" [])).lookup "snow_depth_analysis" =
      some (.jobj [])) ∧
    ((resultFields (buildResult "T" "s" "e" [])).lookup "snowfall_analysis" =
      some (.jobj [])) :=
  ⟨(C7_empty_subreports_not_omitted "T" "s" "e" []).2.2.1 rfl,
   (C7_empty_subreports_not_omitted "T" "s" "e" []).2.2.2 rfl⟩

/-- C8 counterexample: a group with a missing element code is not skipped —
its values are grouped under the empty-string element code and still produce
a record, so the result differs from normalization with the malformed group
absent. -/
theorem C8_counterexample :
    normalize [⟨none, [⟨some "d1", some 5⟩]⟩] = .ok [⟨some "d1", [("", some 5)]⟩] ∧
    normalize [⟨none, [⟨some "d1", some 5⟩]⟩] ≠ normalize [] :=
  ⟨by decide, by decide⟩

/-- C8 (amended): malformed entries are not skipped. A group missing its
element code is treated exactly as a group whose element code is the empty
string and still contributes records; a value entry missing its date
contributes a null date, which yields a null-dated record when no dated
entries are present and makes date sorting raise (caught at the tool
boundary as an error response) when mixed with dated entries. -/
theorem C8_malformed_not_skipped :
    (∀ vs gs, normalize (⟨none, vs⟩ :: gs) = normalize (⟨some "", vs⟩ :: gs)) ∧
    normalize [⟨some "SNWD", [⟨none, some 5⟩]⟩] = .ok [⟨none, [("SNWD", some 5)]⟩] ∧
    normalize [⟨some "SNWD", [⟨none, some 5⟩, ⟨some "d1", some 6⟩]⟩] = .error () :=
  ⟨fun _ _ => rfl, by decide, by decide⟩

/-- C9 counterexample: for an empty source response the tool returns the
error-shaped object with the single key `"error"` — `errorResponse` is
exactly the shape produced for transport failures at the tool boundary
(line 499), so the no-data result is not distinct in shape from a
transport-failure error response. -/
theorem C9_counterexample :
    analyze_snowpack_trends "713:CO:SNTL" "2024-01-01" "2024-03-31" [] =
      errorResponse "No data available for analysis: 713:CO:SNTL" ∧
    errorResponse "No data available for analysis: 713:CO:SNTL" =
      .jobj [("error", .jstr "No data available for analysis: 713:CO:SNTL")] :=
  ⟨rfl, rfl⟩

/-- C9 (amended): when the source returns no data (or no records match), the
tool returns a structured JSON result rather than raising, but that result
is an error-shaped object with the single key `"error"` — the same shape as
the transport-failure response — distinguishable only by its message text. -/
theorem C9_no_data_error_shaped :
    (∀ t s e, analyze_snowpack_trends t s e [] =
      errorResponse ("No data available for analysis: " ++ t)) ∧
    (∀ t s e sts, sts ≠ [] → parseMeasurements t sts = .ok [] →
      analyze_snowpack_trends t s e sts =
        errorResponse "No measurements found for analysis") := by
  refine ⟨fun t s e => rfl, ?_⟩
  intro t s e sts hne hpm
  cases sts with
  | nil => exact absurd rfl hne
  | cons a l =>
    simp only [analyze_snowpack_trends, List.isEmpty_cons, hpm]
    rfl

theorem C9_witness :
    analyze_snowpack_trends "T" "s" "e" [⟨some "X", []⟩] =
      errorResponse "No measurements found for analysis" :=
  C9_no_data_error_shaped.2 "T" "s" "e" [⟨some "X", []⟩] (by decide) (by decide)

theorem buildElementData_go (c : String) :
    ∀ (gs : List Group) (ed : List (String × List RawValue)),
      ((gs.foldl (fun ed g => pyInsert (g.elementCode.getD "") g.values ed) ed).lookup c)
        = (lastMatch c gs).or (ed.lookup c) := by
  intro gs
  induction gs with
  | nil => intro ed; rfl
  | cons g gs ih =>
    intro ed
    simp only [List.foldl_cons, lastMatch]
    rw [ih, lookup_pyInsert, optOr_assoc]
    congr 1
    by_cases hc : c = g.elementCode.getD ""
    · rw [if_pos hc, if_pos hc.symm]
      rfl
    · rw [if_neg hc, if_neg (fun h => hc h.symm)]
      rfl

/-- C10: when a station's data list holds several groups with the same
element code, the `element_data` dict keeps only the last such group's
values list (`lastMatch`), discarding every value of the earlier groups —
concretely, two SNWD groups for dates d1 and d2 normalize to the single d2
record, with the d1 value gone even though the last group does not cover
d1. -/
theorem C10_last_group_wins :
    (∀ gs c, (buildElementData gs).lookup c = lastMatch c gs) ∧
    normalize [⟨some "SNWD", [⟨some "d1", some 5⟩]⟩,
               ⟨some "SNWD", [⟨some "d2", some 7⟩]⟩] =
      .ok [⟨some "d2", [("SNWD", some 7)]⟩] := by
  refine ⟨?_, by decide⟩
  intro gs c
  have h := buildElementData_go c gs []
  simpa [buildElementData, optOr_none] using h

end Snotel
